import Mathlib

/-!
# BMA media asset backend — verification of the core model

A shallow embedding of the core logic of the BMA repository (Django models and
API handlers in `src/files` and `src/albums`), together with theorems settling
the frozen claims about it.

Conventions of the embedding:
* UUIDs, user ids and group ids are modelled as `Nat`.
* Timestamps are modelled as `Nat`; a membership period is a half-open
  interval `[lower, upper)` where `upper = none` means unbounded.
* The relational store is a record of lists of rows; querysets become list
  filters and updates become list maps.
* The django-guardian object-permission ledger (a third-party dependency) is
  modelled as a list of (principal, permission, object) grants, with the
  superuser bypass described in the spec (§4.3 Permission Ledger).
* Fields of the Django models that no claim mentions (timestamps,
  license, file sizes, thumbnail urls) are elided from the records.
-/

namespace BMA

/-- Object UUIDs (uuid4 in the source) are modelled as naturals. -/
abbrev UUID := Nat

/-- User primary keys are modelled as naturals. -/
abbrev UserId := Nat

/-- Group primary keys are modelled as naturals. -/
abbrev GroupId := Nat

/-- The object-level permission names declared by the source
(`BaseFile.Meta.permissions`, Django's builtin model permissions, and the
album permissions assigned in `albums/api.py`). -/
inductive Perm where
  | view_basefile
  | change_basefile
  | delete_basefile
  | approve_basefile
  | unapprove_basefile
  | publish_basefile
  | unpublish_basefile
  | softdelete_basefile
  | undelete_basefile
  | change_album
  | delete_album
  deriving DecidableEq, Repr

/-- A principal of the permission ledger: an individual user or a group
(django-guardian supports both). -/
inductive Principal where
  | user (u : UserId)
  | group (g : GroupId)
  deriving DecidableEq, Repr

/-- One object-level grant row of the permission ledger. -/
structure Grant where
  who : Principal
  perm : Perm
  obj : UUID
  deriving DecidableEq, Repr

/-- The object-permission ledger: a list of grant rows. -/
abbrev Ledger := List Grant

/-- Modelled from the spec: django-guardian's `assign_perm` (the ledger's
`assign` operation of spec §4.3); it is a get-or-create, so assigning an
existing grant is a no-op. -/
def assign_perm (p : Perm) (who : Principal) (obj : UUID) (l : Ledger) : Ledger :=
  if (⟨who, p, obj⟩ : Grant) ∈ l then l else ⟨who, p, obj⟩ :: l

/-- A user: id, superuser flag, and the groups the user belongs to. -/
structure User where
  id : UserId
  is_superuser : Bool
  groups : List GroupId
  deriving DecidableEq, Repr

/-- Does a single ledger row give user `u` permission `p` on object `obj`?
True when the row is for this permission and object and its principal is the
user itself or one of the user's groups. -/
def grantMatches (u : User) (p : Perm) (obj : UUID) (g : Grant) : Bool :=
  decide (g.perm = p) && decide (g.obj = obj) &&
    (decide (g.who = Principal.user u.id) ||
      u.groups.any (fun gr => decide (g.who = Principal.group gr)))

/-- Modelled from the spec: `user.has_perm(perm, obj)` through django-guardian
(the ledger's `has_permission` of spec §4.3), including the superuser bypass
that always returns true. -/
def has_perm (l : Ledger) (u : User) (p : Perm) (obj : UUID) : Bool :=
  u.is_superuser || l.any (grantMatches u p obj)

/-- The `BaseFile` record (`files/models.py`), boolean status variant:
`approved`, `published` and `deleted` are three independent booleans. -/
structure BaseFile where
  uuid : UUID
  uploader : UserId
  title : String
  description : String
  attribution : String
  approved : Bool
  published : Bool
  deleted : Bool
  deriving DecidableEq, Repr

/-- The filter `approved=True, published=True, deleted=False` used by
`BaseFileQuerySet.get_permitted` for the public files. -/
def BaseFile.is_public (f : BaseFile) : Bool :=
  f.approved && f.published && !f.deleted

/-- Embeds `BaseFile.permitted` (`files/models.py` 330-334): viewing is permitted if
the user has the `view_basefile` permission or the file is approved,
published and not deleted. -/
def BaseFile.permitted (l : Ledger) (f : BaseFile) (u : User) : Bool :=
  has_perm l u .view_basefile f.uuid || (f.approved && f.published && !f.deleted)

/-- Modelled from the spec: django-guardian's `get_objects_for_user` — the
objects of the queryset for which the user has the permission (the ledger's
`objects_with_permission` of spec §4.3, superuser bypass included). -/
def get_objects_for_user (l : Ledger) (u : User) (p : Perm) (files : List BaseFile) :
    List BaseFile :=
  files.filter (fun f => has_perm l u p f.uuid)

/-- Embeds `BaseFileQuerySet.get_permitted` (`files/models.py` 87-97): the union of
the approved+published+not-deleted files and the files the user has
`view_basefile` on, with duplicates removed (`.distinct()`). -/
def get_permitted (l : Ledger) (u : User) (files : List BaseFile) : List BaseFile :=
  (files.filter BaseFile.is_public ++ get_objects_for_user l u .view_basefile files).dedup

/-! ## File lifecycle -/

/-- The four lifecycle stages used by the status-string code paths
(`files/api.py`): PENDING_MODERATION, UNPUBLISHED, PUBLISHED,
PENDING_DELETION. -/
inductive Status where
  | pending_moderation
  | unpublished
  | published
  | pending_deletion
  deriving DecidableEq, Repr

/-- Modelled from the spec: the repository holds two status representations
(a status string used by `files/api.py` and three booleans used by
`files/models.py`); the models file under `src/` has only the booleans, so the
status read by the API is the tagged state derived from the booleans exactly
as the spec's DESIGN NOTES prescribe (deleted ↦ pending_deletion, else not
approved ↦ pending_moderation, else published ↦ published, else
unpublished). -/
def BaseFile.status (f : BaseFile) : Status :=
  if f.deleted then .pending_deletion
  else if !f.approved then .pending_moderation
  else if f.published then .published
  else .unpublished

/-- Embeds `BaseFile.approve` (`files/models.py` 289-291): sets `approved := true`
via `update_field`; it touches nothing else (in particular not the
permission ledger). -/
def BaseFile.approve (f : BaseFile) : BaseFile := { f with approved := true }

/-- Embeds `BaseFile.unapprove` (`files/models.py` 293-295): sets
`approved := false`; it touches nothing else. -/
def BaseFile.unapprove (f : BaseFile) : BaseFile := { f with approved := false }

/-- Embeds `BaseFile.publish`: sets `published := true`. -/
def BaseFile.publish (f : BaseFile) : BaseFile := { f with published := true }

/-- Embeds `BaseFile.unpublish`: sets `published := false`. -/
def BaseFile.unpublish (f : BaseFile) : BaseFile := { f with published := false }

/-- Embeds `BaseFile.softdelete`: sets `deleted := true`. -/
def BaseFile.softdelete (f : BaseFile) : BaseFile := { f with deleted := true }

/-- Embeds `BaseFile.undelete`: sets `deleted := false`. -/
def BaseFile.undelete (f : BaseFile) : BaseFile := { f with deleted := false }

/-- Modelled from the spec: `update_status(new_status="PENDING_DELETION")`
called by `file_delete` belongs to the status-string model variant that is
not under `src/`; per the spec's soft-delete description it marks the file
deleted (the boolean rendering of PENDING_DELETION). -/
def BaseFile.update_status_pending_deletion (f : BaseFile) : BaseFile :=
  { f with deleted := true }

/-- The batch actions a `BaseFileQuerySet` exposes (`files/models.py`
63-85), each flipping one boolean on every file of the queryset. -/
inductive FileAction where
  | approve
  | unapprove
  | publish
  | unpublish
  deriving DecidableEq, Repr

/-- Embeds `BaseFileQuerySet.change_bool` specialised to the four batch actions. -/
def FileAction.apply : FileAction → BaseFile → BaseFile
  | .approve => BaseFile.approve
  | .unapprove => BaseFile.unapprove
  | .publish => BaseFile.publish
  | .unpublish => BaseFile.unpublish

/-- The object-level permission each batch action requires
(`files/api.py` approve/unapprove/publish/unpublish wrappers). -/
def FileAction.perm : FileAction → Perm
  | .approve => .approve_basefile
  | .unapprove => .unapprove_basefile
  | .publish => .publish_basefile
  | .unpublish => .unpublish_basefile

/-- The `old_status` filter each batch action passes to `api_file_action`
(`files/api.py`: approve requires PENDING_MODERATION, publish requires
UNPUBLISHED, unpublish requires PUBLISHED, unapprove passes the empty
filter). -/
def FileAction.old_status : FileAction → Option Status
  | .approve => some .pending_moderation
  | .unapprove => none
  | .publish => some .unpublished
  | .unpublish => some .published

/-! ## Album membership intervals -/

/-- A half-open time range `[lower, upper)`; `upper = none` is an unbounded
("still a member") period, as in the `DateTimeRangeField` of
`albums/models.py`. -/
structure Period where
  lower : Nat
  upper : Option Nat
  deriving DecidableEq, Repr

/-- Range membership: `t ∈ [lower, upper)`. -/
def Period.contains (p : Period) (t : Nat) : Bool :=
  decide (p.lower ≤ t) &&
    (match p.upper with
     | none => true
     | some u => decide (t < u))

/-- A range is nonempty when its lower bound is below its upper bound
(Postgres normalises empty ranges, and empty ranges overlap nothing). -/
def Period.nonempty (p : Period) : Bool :=
  match p.upper with
  | none => true
  | some u => decide (p.lower < u)

/-- Range overlap (the Postgres `&&` operator used by the exclusion
constraint): both ranges are nonempty and each starts before the other
ends. -/
def Period.overlaps (p q : Period) : Bool :=
  p.nonempty && q.nonempty &&
    (match q.upper with
     | none => true
     | some uq => decide (p.lower < uq)) &&
    (match p.upper with
     | none => true
     | some up => decide (q.lower < up))

/-- One `AlbumMember` row (`albums/models.py` 122-159): a file, an album and
a membership period. -/
structure AlbumMember where
  uuid : UUID
  basefile : UUID
  album : UUID
  period : Period
  deriving DecidableEq, Repr

/-- Does inserting row `m` violate the `prevent_membership_overlaps`
exclusion constraint against the existing rows? (Same basefile, same album,
overlapping periods.) -/
def violates (rows : List AlbumMember) (m : AlbumMember) : Bool :=
  rows.any (fun r =>
    decide (r.basefile = m.basefile) && decide (r.album = m.album) &&
      r.period.overlaps m.period)

/-- An insert screened by the exclusion constraint of
`AlbumMember.Meta.constraints`: a row that would overlap an existing row of
the same (file, album) pair is rejected atomically and the table is
unchanged. -/
def insertMember (rows : List AlbumMember) (m : AlbumMember) :
    Except Unit (List AlbumMember) :=
  if violates rows m then .error () else .ok (m :: rows)

/-- The membership-table states reachable through the storage layer: start
empty; insert a row the exclusion constraint accepts; or close an unbounded
row by setting its end (the update `remove_members` performs). -/
inductive Reach : List AlbumMember → Prop where
  | nil : Reach []
  | insert {rows : List AlbumMember} {m : AlbumMember}
      (h : Reach rows) (hm : violates rows m = false) : Reach (m :: rows)
  | close {rows₁ rows₂ : List AlbumMember} {r : AlbumMember} {t : Nat}
      (h : Reach (rows₁ ++ r :: rows₂)) (hupper : r.period.upper = none) :
      Reach (rows₁ ++ { r with period := ⟨r.period.lower, some t⟩ } :: rows₂)

/-- The no-overlap invariant: any two distinct rows of the table for the same
(file, album) pair have non-overlapping periods. -/
def PairwiseOk (rows : List AlbumMember) : Prop :=
  rows.Pairwise (fun r s =>
    r.basefile = s.basefile → r.album = s.album → r.period.overlaps s.period = false)

/-- Is the row an open (unbounded) membership of file `f` in album `a`? -/
def isOpenFor (f a : UUID) (m : AlbumMember) : Bool :=
  decide (m.basefile = f) && decide (m.album = a) && decide (m.period.upper = none)

/-- One step of `Album.add_members` (`albums/models.py` 85-94): the
`get_or_create` keyed on (basefile, album, `period__endswith=None`): if an
open membership row exists the call is a no-op, otherwise a fresh row with
the default period `[now, ∞)` (`from_now_to_forever`) is created. The
`BaseFile.objects.get` lookup of the uuid is elided: the claims only concern
uuids of existing files. -/
def add_member (rows : List AlbumMember) (album f : UUID) (now : Nat) (fresh : UUID) :
    List AlbumMember :=
  if rows.any (isOpenFor f album) then rows
  else rows ++ [⟨fresh, f, album, ⟨now, none⟩⟩]

/-- Embeds `Album.add_members`: one `get_or_create` per requested file uuid;
`freshFor` supplies the uuid4 of a row that gets created. -/
def add_members (rows : List AlbumMember) (album : UUID) (file_uuids : List UUID)
    (now : Nat) (freshFor : UUID → UUID) : List AlbumMember :=
  file_uuids.foldl (fun acc f => add_member acc album f now (freshFor f)) rows

/-- Embeds `Album.remove_members` (`albums/models.py` 96-100): every open membership
row of this album whose file is in the request is closed by replacing its
period with `[lower, now)`; rows are updated in place, never deleted, and a
file with no open row is silently skipped. -/
def remove_members (rows : List AlbumMember) (album : UUID) (file_uuids : List UUID)
    (now : Nat) : List AlbumMember :=
  rows.map (fun m =>
    if decide (m.album = album) && decide (m.basefile ∈ file_uuids) &&
        decide (m.period.upper = none)
    then { m with period := ⟨m.period.lower, some now⟩ }
    else m)

/-- Does file `f` have a membership row in album `a` whose period contains
`t` (an "active membership")? -/
def active_member (rows : List AlbumMember) (f a : UUID) (t : Nat) : Bool :=
  rows.any (fun m =>
    decide (m.basefile = f) && decide (m.album = a) && m.period.contains t)

/-- Embeds `Album.active_files` (`albums/models.py` 102-106) restricted to the file
uuids: the files with a membership period containing `t`, deduplicated. -/
def active_file_uuids (rows : List AlbumMember) (a : UUID) (t : Nat) : List UUID :=
  ((rows.filter (fun m => decide (m.album = a) && m.period.contains t)).map
    (fun m => m.basefile)).dedup

/-! ## The store and the API handlers -/

/-- The `Album` record (`albums/models.py` 22-83); tags elided. -/
structure Album where
  uuid : UUID
  owner : UserId
  title : String
  description : String
  deleted : Bool
  deriving DecidableEq, Repr

/-- The whole relational store the API handlers touch. -/
structure Store where
  files : List BaseFile
  albums : List Album
  memberships : List AlbumMember
  ledger : Ledger
  deriving DecidableEq, Repr

/-- The response of `api_file_action` (`files/api.py` 187-224): 200 with the
"action n files OK" count, 202 for check mode, or the 403 whose message
reports how many of the requested files failed the status/permission
filter. -/
inductive BatchResp where
  | ok (count : Nat)
  | accepted
  | denied (errors : Nat) (requested : Nat)
  deriving DecidableEq, Repr

/-- Does file `f` pass the queryset filter of `api_file_action`: uuid among
the requested ones and, when an `old_status` is given, status equal to it? -/
def actionFilter (uuids : List UUID) (old_status : Option Status) (f : BaseFile) : Bool :=
  decide (f.uuid ∈ uuids) &&
    (match old_status with
     | none => true
     | some st => decide (f.status = st))

/-- The `db_files` queryset of `api_file_action`: the stored files whose
uuid was requested, whose status matches the action's `old_status` filter,
and on which the caller has the action's permission
(`get_objects_for_user(request.user, permission, klass=...)`). -/
def eligible_files (s : Store) (u : User) (uuids : List UUID) (act : FileAction) :
    List BaseFile :=
  (s.files.filter (actionFilter uuids act.old_status)).filter
    (fun f => has_perm s.ledger u act.perm f.uuid)

/-- Embeds `api_file_action` (`files/api.py` 187-224): filter the requested uuids by
`old_status` and by the caller's permission; if the eligible count differs
from the requested count answer 403 and change nothing; else in check mode
answer 202 and change nothing; else apply the queryset action to the
eligible files and answer 200 with the eligible count. -/
def api_file_action (s : Store) (u : User) (uuids : List UUID) (act : FileAction)
    (check : Bool) : BatchResp × Store :=
  let eligible := eligible_files s u uuids act
  if uuids.length ≠ eligible.length then
    (.denied (uuids.length - eligible.length) uuids.length, s)
  else if check then (.accepted, s)
  else
    (.ok eligible.length,
      { s with
        files := s.files.map (fun f =>
          if actionFilter uuids act.old_status f && has_perm s.ledger u act.perm f.uuid
          then act.apply f else f) })

/-- The responses of the single-object handlers. -/
inductive Resp where
  | ok
  | accepted
  | noContent
  | permDenied
  | notFound
  | keyError
  deriving DecidableEq, Repr

/-- HTTP method of the update handlers. -/
inductive Method where
  | put
  | patch
  deriving DecidableEq, Repr

/-- A parsed `AlbumRequestSchema` body (`albums/schema.py` 15-26). `none`
means the field was absent from the payload (excluded by
`dict(exclude_unset=True)`); `payload.dict()` without `exclude_unset` fills
the defaults `""`, `""` and `[]`. -/
structure AlbumPayload where
  title : Option String
  description : Option String
  files : Option (List UUID)
  deriving DecidableEq, Repr

/-- Embeds `album_update` (`albums/api.py` 138-184). PATCH: build
`data = payload.dict(exclude_unset=True)` and run `del data["files"]` — a
KeyError when `files` was absent; update the set scalar fields; then, since
`"files" in payload.dict()` is always true (the dict with defaults), sync the
memberships against the requested file list (close active memberships not
requested, add requested files not active). PUT: replace scalars with the
payload values or their defaults and replace the active file set. -/
def album_update (s : Store) (u : User) (album_uuid : UUID) (payload : AlbumPayload)
    (method : Method) (check : Bool) (now : Nat) (freshFor : UUID → UUID) :
    Resp × Store :=
  match s.albums.find? (fun a => decide (a.uuid = album_uuid)) with
  | none => (.notFound, s)
  | some album =>
    if !(has_perm s.ledger u .change_album album.uuid) then (.permDenied, s)
    else if check then (.accepted, s)
    else
      match method with
      | .patch =>
        match payload.files with
        | none => (.keyError, s)
        | some new_files =>
          let album' := { album with
            title := payload.title.getD album.title,
            description := payload.description.getD album.description }
          let current := active_file_uuids s.memberships album_uuid now
          let remove_uuids := current.filter (fun x => decide (x ∉ new_files))
          let rows₁ := remove_members s.memberships album_uuid remove_uuids now
          let add_uuids := new_files.filter (fun x => decide (x ∉ current))
          let rows₂ := add_members rows₁ album_uuid add_uuids now freshFor
          (.ok,
            { s with
              albums := s.albums.map (fun a => if a.uuid = album_uuid then album' else a),
              memberships := rows₂ })
      | .put =>
        let album' := { album with
          title := payload.title.getD "",
          description := payload.description.getD "" }
        let current := active_file_uuids s.memberships album_uuid now
        let rows₁ := remove_members s.memberships album_uuid current now
        let rows₂ := add_members rows₁ album_uuid (payload.files.getD []) now freshFor
        (.ok,
          { s with
            albums := s.albums.map (fun a => if a.uuid = album_uuid then album' else a),
            memberships := rows₂ })

/-- Embeds `album_delete` (`albums/api.py` 192-205): permission check, check mode,
then mark the album deleted. -/
def album_delete (s : Store) (u : User) (album_uuid : UUID) (check : Bool) :
    Resp × Store :=
  match s.albums.find? (fun a => decide (a.uuid = album_uuid)) with
  | none => (.notFound, s)
  | some album =>
    if !(has_perm s.ledger u .delete_album album.uuid) then (.permDenied, s)
    else if check then (.accepted, s)
    else
      (.noContent,
        { s with albums := s.albums.map (fun a =>
            if a.uuid = album_uuid then { a with deleted := true } else a) })

/-- A parsed `FileUpdateRequestSchema` body (`files/schema.py`), restricted
to the fields the embedding keeps; `none` means absent from the payload. -/
structure FileMeta where
  title : Option String
  description : Option String
  attribution : Option String
  deriving DecidableEq, Repr

/-- Embeds `file_update` (`files/api.py` 455-491): permission check, check mode,
then update the file metadata (PATCH keeps absent fields, PUT resets them to
the schema defaults). The `full_clean` validation concerns fields elided from
the embedding. -/
def file_update (s : Store) (u : User) (fid : UUID) (meta : FileMeta) (method : Method)
    (check : Bool) : Resp × Store :=
  match s.files.find? (fun f => decide (f.uuid = fid)) with
  | none => (.notFound, s)
  | some f =>
    if !(has_perm s.ledger u .change_basefile f.uuid) then (.permDenied, s)
    else if check then (.accepted, s)
    else
      let f' :=
        match method with
        | .patch => { f with
            title := meta.title.getD f.title,
            description := meta.description.getD f.description,
            attribution := meta.attribution.getD f.attribution }
        | .put => { f with
            title := meta.title.getD "",
            description := meta.description.getD "",
            attribution := meta.attribution.getD "" }
      (.ok, { s with files := s.files.map (fun g => if g.uuid = fid then f' else g) })

/-- Embeds `file_delete` (`files/api.py` 505-517): requires `delete_basefile` on the
file; permission failure answers 403 and changes nothing; check mode answers
202; otherwise the file is marked for deletion. -/
def file_delete (s : Store) (u : User) (fid : UUID) (check : Bool) : Resp × Store :=
  match s.files.find? (fun f => decide (f.uuid = fid)) with
  | none => (.notFound, s)
  | some f =>
    if !(has_perm s.ledger u .delete_basefile f.uuid) then (.permDenied, s)
    else if check then (.accepted, s)
    else
      (.noContent,
        { s with files := s.files.map (fun g =>
            if g.uuid = fid then g.update_status_pending_deletion else g) })

/-- Embeds `BaseFile.add_initial_permissions` (`files/models.py` 313-328): the
uploader receives view, change, publish, unpublish, softdelete and undelete
on the file, and the moderators group receives view, approve and
unapprove. -/
def BaseFile.add_initial_permissions (f : BaseFile) (moderators : GroupId)
    (l : Ledger) : Ledger :=
  assign_perm .unapprove_basefile (.group moderators) f.uuid
    (assign_perm .approve_basefile (.group moderators) f.uuid
      (assign_perm .view_basefile (.group moderators) f.uuid
        (assign_perm .undelete_basefile (.user f.uploader) f.uuid
          (assign_perm .softdelete_basefile (.user f.uploader) f.uuid
            (assign_perm .unpublish_basefile (.user f.uploader) f.uuid
              (assign_perm .publish_basefile (.user f.uploader) f.uuid
                (assign_perm .change_basefile (.user f.uploader) f.uuid
                  (assign_perm .view_basefile (.user f.uploader) f.uuid l))))))))

/-! ## The two album filters of the listing paths -/

/-- The albums filter of the API `file_list` endpoint (`files/api.py`
128-129): `files.filter(albums__in=filters.albums)` — a file passes when some
membership row (of any period) links it to any of the requested albums. -/
def file_list_albums_filter (rows : List AlbumMember) (albums : List UUID)
    (files : List BaseFile) : List BaseFile :=
  files.filter (fun f =>
    rows.any (fun m => decide (m.basefile = f.uuid) && decide (m.album ∈ albums)))

/-- Embeds `FileFilter.filter_albums` (`files/filters.py` 49-55), used by the file
list views: one `.filter` per requested album, each demanding a membership of
that album whose period contains now — files active in all the albums. -/
def FileFilter.filter_albums (rows : List AlbumMember) (now : Nat)
    (albums : List UUID) (files : List BaseFile) : List BaseFile :=
  albums.foldl (fun acc a => acc.filter (fun f => active_member rows f.uuid a now)) files

/-! ## Theorems -/

/-- C1: `permitted(f, u)` is true iff the user holds `view_basefile` on the
file or the file is approved, published and not deleted; hence public files
are permitted for every user regardless of grants; and the permitted-file
listing `get_permitted` contains exactly the files of the queryset that are
public or granted (duplicates removed). -/
theorem c1_permitted_public_or_granted :
    (∀ (l : Ledger) (f : BaseFile) (u : User),
      f.permitted l u = true ↔
        (has_perm l u .view_basefile f.uuid = true ∨
          (f.approved = true ∧ f.published = true ∧ f.deleted = false))) ∧
    (∀ (l : Ledger) (f : BaseFile) (u : User),
      f.approved = true → f.published = true → f.deleted = false →
        f.permitted l u = true) ∧
    (∀ (l : Ledger) (u : User) (files : List BaseFile) (f : BaseFile),
      f ∈ get_permitted l u files ↔
        f ∈ files ∧ (f.is_public = true ∨ has_perm l u .view_basefile f.uuid = true)) := by
  refine ⟨?_, ?_, ?_⟩
  · intro l f u
    simp [BaseFile.permitted, Bool.or_eq_true, Bool.and_eq_true, Bool.not_eq_true']
    tauto
  · intro l f u h1 h2 h3
    simp [BaseFile.permitted, h1, h2, h3]
  · intro l u files f
    simp only [get_permitted, get_objects_for_user, List.mem_dedup, List.mem_append,
      List.mem_filter]
    tauto

/-- C1 witness: a concrete public file is permitted for a stranger with no
grants. -/
theorem c1_permitted_public_or_granted_witness :
    BaseFile.permitted [] ⟨7, 1, "t", "", "", true, true, false⟩ ⟨2, false, []⟩ = true :=
  c1_permitted_public_or_granted.2.1 [] ⟨7, 1, "t", "", "", true, true, false⟩
    ⟨2, false, []⟩ rfl rfl rfl

/-- Range overlap is symmetric. -/
theorem overlaps_symm (p q : Period) : p.overlaps q = q.overlaps p := by
  unfold Period.overlaps
  cases hp : p.upper <;> cases hq : q.upper <;>
    simp [Period.nonempty, hp, hq, Bool.and_comm, Bool.and_left_comm, Bool.and_assoc]

/-- Shrinking the left range preserves overlap: if the closed range
`[lo, t)` overlaps `x`, so does the open range `[lo, ∞)` it came from. -/
theorem overlaps_of_overlaps_close (x : Period) (lo t : Nat)
    (h : Period.overlaps ⟨lo, some t⟩ x = true) :
    Period.overlaps ⟨lo, none⟩ x = true := by
  unfold Period.overlaps at h ⊢
  cases hx : x.upper <;> simp [Period.nonempty, hx] at h ⊢
  all_goals omega

/-- Two open periods of the same (file, album) pair always overlap. -/
theorem overlaps_open_open (p q : Period) (hp : p.upper = none)
    (hq : q.upper = none) : p.overlaps q = true := by
  unfold Period.overlaps
  simp [Period.nonempty, hp, hq]

/-- Closing an open period cannot create an overlap that was not already
there: if `[lo, t)` overlaps `x` then so did the open `[lo, ∞)`. -/
theorem not_overlaps_close (r x : Period) (t : Nat) (hopen : r.upper = none)
    (h : r.overlaps x = false) :
    Period.overlaps ⟨r.lower, some t⟩ x = false := by
  by_contra hne
  have h1 : Period.overlaps ⟨r.lower, some t⟩ x = true := by
    revert hne; cases Period.overlaps ⟨r.lower, some t⟩ x <;> simp
  have h2 := overlaps_of_overlaps_close x r.lower t h1
  have : r = ⟨r.lower, none⟩ := by cases r; simp_all
  rw [← this] at h2
  rw [h] at h2
  cases h2

/-- Every membership-table state the storage layer can reach satisfies the
pairwise no-overlap invariant. -/
theorem reach_pairwiseOk {rows : List AlbumMember} (h : Reach rows) :
    PairwiseOk rows := by
  induction h with
  | nil => exact List.Pairwise.nil
  | @insert rows m _ hm ih =>
    refine List.pairwise_cons.mpr ⟨?_, ih⟩
    intro r hr hbf halb
    have hall := List.any_eq_false.mp hm r hr
    by_contra hov
    have hov' : m.period.overlaps r.period = true := by
      revert hov; cases m.period.overlaps r.period <;> simp
    apply hall
    simp [hbf, halb, overlaps_symm r.period m.period, hov']
  | @close rows₁ rows₂ r t _ hupper ih =>
    rw [PairwiseOk, List.pairwise_append] at ih ⊢
    obtain ⟨h₁, h₂, h₃⟩ := ih
    rw [List.pairwise_cons] at h₂
    obtain ⟨hrb, h₂'⟩ := h₂
    refine ⟨h₁, List.pairwise_cons.mpr ⟨?_, h₂'⟩, ?_⟩
    · intro b hb hbf halb
      exact not_overlaps_close r.period b.period t hupper (hrb b hb hbf halb)
    · intro a ha b hb
      rcases List.mem_cons.mp hb with rfl | hb₂
      · intro hbf halb
        have h0 : a.period.overlaps r.period = false :=
          h₃ a ha r (List.mem_cons_self _ _) hbf halb
        have h4 := not_overlaps_close r.period a.period t hupper
          (by rw [overlaps_symm] at h0; exact h0)
        rw [overlaps_symm]
        exact h4
      · exact h₃ a ha b (List.mem_cons_of_mem _ hb₂)

/-- A table satisfying the no-overlap invariant has at most one open row per
(file, album) pair. -/
theorem filter_open_length_le_one {rows : List AlbumMember}
    (hpw : PairwiseOk rows) (f a : UUID) :
    (rows.filter (isOpenFor f a)).length ≤ 1 := by
  have hsub : (rows.filter (isOpenFor f a)).Pairwise
      (fun r s => r.basefile = s.basefile → r.album = s.album →
        r.period.overlaps s.period = false) :=
    hpw.sublist (List.filter_sublist rows)
  rcases hfl : rows.filter (isOpenFor f a) with _ | ⟨x, _ | ⟨y, ys⟩⟩
  · simp
  · simp
  · exfalso
    rw [hfl] at hsub
    have hxy := (List.pairwise_cons.mp hsub).1 y (List.mem_cons_self _ _)
    have hx : isOpenFor f a x = true :=
      (List.mem_filter.mp (hfl ▸ List.mem_cons_self x _)).2
    have hy : isOpenFor f a y = true :=
      (List.mem_filter.mp (hfl ▸ List.mem_cons_of_mem x (List.mem_cons_self y ys))).2
    simp only [isOpenFor, Bool.and_eq_true, decide_eq_true_eq] at hx hy
    have hov := hxy (by rw [hx.1.1, hy.1.1]) (by rw [hx.1.2, hy.1.2])
    rw [overlaps_open_open x.period y.period hx.2 hy.2] at hov
    cases hov

/-- C2: in every reachable membership-table state no two rows of the same
(file, album) pair have overlapping periods, at most one row per pair is
open, and an insert that would overlap is rejected by the exclusion
constraint leaving the table unchanged. -/
theorem c2_interval_exclusion (rows : List AlbumMember) (h : Reach rows) :
    PairwiseOk rows ∧
    (∀ f a, (rows.filter (isOpenFor f a)).length ≤ 1) ∧
    (∀ m, violates rows m = true → insertMember rows m = Except.error ()) := by
  refine ⟨reach_pairwiseOk h,
    fun f a => filter_open_length_le_one (reach_pairwiseOk h) f a, ?_⟩
  intro m hm
  simp [insertMember, hm]

/-- C2 witness: the invariant at a concrete one-row reachable table. -/
theorem c2_interval_exclusion_witness :
    PairwiseOk [(⟨0, 1, 2, ⟨0, none⟩⟩ : AlbumMember)] ∧
    (∀ f a,
      (([(⟨0, 1, 2, ⟨0, none⟩⟩ : AlbumMember)]).filter (isOpenFor f a)).length ≤ 1) ∧
    (∀ m, violates [(⟨0, 1, 2, ⟨0, none⟩⟩ : AlbumMember)] m = true →
      insertMember [(⟨0, 1, 2, ⟨0, none⟩⟩ : AlbumMember)] m = Except.error ()) :=
  c2_interval_exclusion [⟨0, 1, 2, ⟨0, none⟩⟩] (Reach.insert Reach.nil rfl)

/-- C3 counterexample: two pending files, the caller may approve only file 1;
requesting approval of both does not mutate the eligible file 1 and return
counts — the whole batch is refused with a 403 and the store is unchanged,
even though the eligible subset is nonempty. -/
theorem c3_counterexample :
    api_file_action
      ⟨[⟨1, 1, "a", "", "", false, false, false⟩,
        ⟨2, 1, "b", "", "", false, false, false⟩],
        [], [], [⟨.user 5, .approve_basefile, 1⟩]⟩
      ⟨5, false, []⟩ [1, 2] .approve false =
      (.denied 1 2,
        ⟨[⟨1, 1, "a", "", "", false, false, false⟩,
          ⟨2, 1, "b", "", "", false, false, false⟩],
          [], [], [⟨.user 5, .approve_basefile, 1⟩]⟩) ∧
    eligible_files
      ⟨[⟨1, 1, "a", "", "", false, false, false⟩,
        ⟨2, 1, "b", "", "", false, false, false⟩],
        [], [], [⟨.user 5, .approve_basefile, 1⟩]⟩
      ⟨5, false, []⟩ [1, 2] .approve =
      [⟨1, 1, "a", "", "", false, false, false⟩] := by
  decide

/-- C3 amended: the batch action filters by status and permission first; if
any requested id is ineligible the whole batch is rejected with a 403
reporting the (ineligible, requested) counts and the store is unchanged;
only when every requested id is eligible are the files updated, with the
eligible count reported. -/
theorem c3_batch_all_or_nothing (s : Store) (u : User) (uuids : List UUID)
    (act : FileAction) :
    (uuids.length ≠ (eligible_files s u uuids act).length →
      api_file_action s u uuids act false =
        (.denied (uuids.length - (eligible_files s u uuids act).length)
          uuids.length, s)) ∧
    (uuids.length = (eligible_files s u uuids act).length →
      api_file_action s u uuids act false =
        (.ok (eligible_files s u uuids act).length,
          { s with files := s.files.map (fun f =>
              if actionFilter uuids act.old_status f &&
                  has_perm s.ledger u act.perm f.uuid
              then act.apply f else f) })) := by
  constructor <;> intro h
  · simp [api_file_action, h]
  · simp [api_file_action, h]

/-- C3 witness: the amended theorem applied at the counterexample input. -/
theorem c3_batch_all_or_nothing_witness :
    api_file_action
      ⟨[⟨1, 1, "a", "", "", false, false, false⟩,
        ⟨2, 1, "b", "", "", false, false, false⟩],
        [], [], [⟨.user 5, .approve_basefile, 1⟩]⟩
      ⟨5, false, []⟩ [1, 2] .approve false =
      (.denied 1 2,
        ⟨[⟨1, 1, "a", "", "", false, false, false⟩,
          ⟨2, 1, "b", "", "", false, false, false⟩],
          [], [], [⟨.user 5, .approve_basefile, 1⟩]⟩) :=
  (c3_batch_all_or_nothing
      ⟨[⟨1, 1, "a", "", "", false, false, false⟩,
        ⟨2, 1, "b", "", "", false, false, false⟩],
        [], [], [⟨.user 5, .approve_basefile, 1⟩]⟩
      ⟨5, false, []⟩ [1, 2] .approve).1 (by decide)

/-- C4, evaluating the code at the failing input: immediately after upload —
before any approval — the uploader already holds `publish_basefile` and
`unpublish_basefile` on the file, and the model-layer approve/unapprove only
flip the `approved` boolean (their type shows they do not touch the
permission ledger at all). This contradicts the claim (and the code's own
docstrings and the upload comment) that publish/unpublish rights exist
exactly when the file is approved. -/
theorem c4_publish_perms_granted_at_upload :
    has_perm
      (BaseFile.add_initial_permissions ⟨1, 3, "t", "", "", false, false, false⟩ 9 [])
      ⟨3, false, []⟩ .publish_basefile 1 = true ∧
    has_perm
      (BaseFile.add_initial_permissions ⟨1, 3, "t", "", "", false, false, false⟩ 9 [])
      ⟨3, false, []⟩ .unpublish_basefile 1 = true ∧
    (⟨1, 3, "t", "", "", false, false, false⟩ : BaseFile).approved = false ∧
    BaseFile.approve ⟨1, 3, "t", "", "", false, false, false⟩ =
      ⟨1, 3, "t", "", "", true, false, false⟩ ∧
    BaseFile.unapprove ⟨1, 3, "t", "", "", true, false, false⟩ =
      ⟨1, 3, "t", "", "", false, false, false⟩ := by
  decide

/-- Membership in an iterated filter fold: an element survives iff it was in
the initial list and passes the predicate of every step. -/
theorem mem_foldl_filter {α β : Type} (g : β → α → Bool) (l : List β)
    (files : List α) (x : α) :
    x ∈ l.foldl (fun acc a => acc.filter (fun f => g a f)) files ↔
      x ∈ files ∧ ∀ a ∈ l, g a x = true := by
  induction l generalizing files with
  | nil => simp
  | cons a t ih =>
    simp only [List.foldl_cons, ih, List.mem_filter, List.forall_mem_cons]
    tauto

/-- C5 counterexample: file 1 is an active member of album 10 only, file 2 of
album 20 only, file 3 of both; the API listing filter with `albums=[10, 20]`
keeps all three files (file 1 passes although it is not an active member of
album 20), instead of exactly the file active in both. -/
theorem c5_counterexample :
    file_list_albums_filter
      [⟨100, 1, 10, ⟨0, none⟩⟩, ⟨101, 2, 20, ⟨0, none⟩⟩,
        ⟨102, 3, 10, ⟨0, none⟩⟩, ⟨103, 3, 20, ⟨0, none⟩⟩]
      [10, 20]
      [⟨1, 1, "a", "", "", true, true, false⟩,
        ⟨2, 1, "b", "", "", true, true, false⟩,
        ⟨3, 1, "c", "", "", true, true, false⟩] =
      [⟨1, 1, "a", "", "", true, true, false⟩,
        ⟨2, 1, "b", "", "", true, true, false⟩,
        ⟨3, 1, "c", "", "", true, true, false⟩] ∧
    active_member
      [⟨100, 1, 10, ⟨0, none⟩⟩, ⟨101, 2, 20, ⟨0, none⟩⟩,
        ⟨102, 3, 10, ⟨0, none⟩⟩, ⟨103, 3, 20, ⟨0, none⟩⟩] 1 20 5 = false ∧
    FileFilter.filter_albums
      [⟨100, 1, 10, ⟨0, none⟩⟩, ⟨101, 2, 20, ⟨0, none⟩⟩,
        ⟨102, 3, 10, ⟨0, none⟩⟩, ⟨103, 3, 20, ⟨0, none⟩⟩]
      5 [10, 20]
      [⟨1, 1, "a", "", "", true, true, false⟩,
        ⟨2, 1, "b", "", "", true, true, false⟩,
        ⟨3, 1, "c", "", "", true, true, false⟩] =
      [⟨3, 1, "c", "", "", true, true, false⟩] := by
  decide

/-- C5 amended: the two listing paths disagree. The web-view filter
`FileFilter.filter_albums` implements AND semantics over currently-active
memberships (a file must be active in every requested album); the API
`file_list` filter keeps any file linked by some membership row — of any
period, active or expired — to at least one of the requested albums. -/
theorem c5_album_filter_semantics (rows : List AlbumMember) (now : Nat)
    (albums : List UUID) (files : List BaseFile) (f : BaseFile) :
    (f ∈ FileFilter.filter_albums rows now albums files ↔
      f ∈ files ∧ ∀ a ∈ albums, active_member rows f.uuid a now = true) ∧
    (f ∈ file_list_albums_filter rows albums files ↔
      f ∈ files ∧ ∃ m ∈ rows, m.basefile = f.uuid ∧ m.album ∈ albums) := by
  constructor
  · exact mem_foldl_filter (fun a g => active_member rows g.uuid a now) albums files f
  · simp [file_list_albums_filter, List.mem_filter, List.any_eq_true]

/-- Calling `add_member` on an already-active member is a no-op. -/
theorem add_member_of_open {rows : List AlbumMember} {album f : UUID}
    {now fresh : Nat} (h : rows.any (isOpenFor f album) = true) :
    add_member rows album f now fresh = rows := by
  simp [add_member, h]

/-- Calling `add_member` on a file with no open membership appends exactly one
fresh open-ended row. -/
theorem add_member_of_no_open {rows : List AlbumMember} {album f : UUID}
    {now fresh : Nat} (h : rows.any (isOpenFor f album) = false) :
    add_member rows album f now fresh =
      rows ++ [⟨fresh, f, album, ⟨now, none⟩⟩] := by
  simp [add_member, h]

/-- Lemma: `add_member` preserves any existing open membership. -/
theorem any_isOpenFor_add_member (rows : List AlbumMember) (album f u : UUID)
    (now fresh : Nat) (h : rows.any (isOpenFor u album) = true) :
    (add_member rows album f now fresh).any (isOpenFor u album) = true := by
  unfold add_member
  split
  · exact h
  · simp only [List.any_append, h, Bool.true_or]

/-- After `add_member` for file `f` an open membership for `f` exists. -/
theorem any_isOpenFor_add_member_self (rows : List AlbumMember) (album f : UUID)
    (now fresh : Nat) :
    (add_member rows album f now fresh).any (isOpenFor f album) = true := by
  unfold add_member
  split
  · assumption
  · simp [List.any_append, isOpenFor]

/-- Lemma: `add_members` preserves any existing open membership. -/
theorem any_isOpenFor_add_members (rows : List AlbumMember) (album u : UUID)
    (us : List UUID) (now : Nat) (g : UUID → UUID)
    (h : rows.any (isOpenFor u album) = true) :
    (add_members rows album us now g).any (isOpenFor u album) = true := by
  induction us generalizing rows with
  | nil => exact h
  | cons a t ih => exact ih _ (any_isOpenFor_add_member _ _ _ _ _ _ h)

/-- After `add_members` every requested file has an open membership. -/
theorem any_isOpenFor_add_members_self (rows : List AlbumMember) (album : UUID)
    (us : List UUID) (now : Nat) (g : UUID → UUID) (u : UUID) (hu : u ∈ us) :
    (add_members rows album us now g).any (isOpenFor u album) = true := by
  induction us generalizing rows with
  | nil => cases hu
  | cons a t ih =>
    rcases List.mem_cons.mp hu with rfl | hu'
    · exact any_isOpenFor_add_members (add_member rows album u now (g u)) album u t
        now g (any_isOpenFor_add_member_self rows album u now (g u))
    · exact ih _ hu'

/-- Lemma: `add_members` is a no-op when every requested file already has an open
membership. -/
theorem add_members_no_op {R : List AlbumMember} {album : UUID} {us : List UUID}
    {now : Nat} {g : UUID → UUID}
    (h : ∀ u ∈ us, R.any (isOpenFor u album) = true) :
    add_members R album us now g = R := by
  induction us with
  | nil => rfl
  | cons a t ih =>
    have h1 : add_member R album a now (g a) = R :=
      add_member_of_open (h a (List.mem_cons_self a t))
    show add_members (add_member R album a now (g a)) album t now g = R
    rw [h1]
    exact ih (fun u hu => h u (List.mem_cons_of_mem a hu))

/-- C6: `add_members` is idempotent — an already-active member yields a
no-op and no second row; a file with no open membership gets exactly one new
open-ended row `[now, ∞)`; and running `add_members` twice with the same
files (at any later time, with any fresh uuids) equals running it once. -/
theorem c6_add_members_idempotent (rows : List AlbumMember) (album f : UUID)
    (us : List UUID) (now now' fresh : Nat) (g g' : UUID → UUID) :
    (rows.any (isOpenFor f album) = true →
      add_member rows album f now fresh = rows) ∧
    (rows.any (isOpenFor f album) = false →
      add_member rows album f now fresh =
        rows ++ [⟨fresh, f, album, ⟨now, none⟩⟩]) ∧
    add_members (add_members rows album us now g) album us now' g' =
      add_members rows album us now g := by
  refine ⟨fun h => add_member_of_open h, fun h => add_member_of_no_open h, ?_⟩
  exact add_members_no_op
    (fun u hu => any_isOpenFor_add_members_self rows album us now g u hu)

/-- C6 witness: adding file 1 to album 2, of which it is already an open
member, changes nothing. -/
theorem c6_add_members_idempotent_witness :
    add_member [(⟨0, 1, 2, ⟨0, none⟩⟩ : AlbumMember)] 2 1 5 9 =
      [(⟨0, 1, 2, ⟨0, none⟩⟩ : AlbumMember)] :=
  (c6_add_members_idempotent [⟨0, 1, 2, ⟨0, none⟩⟩] 2 1 [] 5 5 9 id id).1
    (by decide)

/-- Lemma: `remove_members` for a single file closes exactly the rows that are open
memberships of that file in the album. -/
theorem remove_members_single (rows : List AlbumMember) (album f : UUID) (t : Nat) :
    remove_members rows album [f] t =
      rows.map (fun m => if isOpenFor f album m
        then { m with period := ⟨m.period.lower, some t⟩ } else m) := by
  unfold remove_members
  congr 1
  funext m
  have hc : (decide (m.album = album) && decide (m.basefile ∈ [f]) &&
      decide (m.period.upper = none)) = isOpenFor f album m := by
    by_cases h1 : m.basefile = f <;> by_cases h2 : m.album = album <;>
      simp [isOpenFor, h1, h2]
  rw [hc]

/-- After `remove_members` for a file no open membership of that file in the
album remains. -/
theorem no_open_after_remove (rows : List AlbumMember) (album f : UUID) (t : Nat) :
    (remove_members rows album [f] t).any (isOpenFor f album) = false := by
  rw [remove_members_single, List.any_eq_false]
  intro x hx
  rcases List.mem_map.mp hx with ⟨m, _, rfl⟩
  cases h : isOpenFor f album m
  · simp [h]
  · simp [isOpenFor]

/-- Lemma: `countP` is invariant under a row transformation that preserves the
predicate. -/
theorem countP_map_invariant {l : List AlbumMember} {g : AlbumMember → AlbumMember}
    {p : AlbumMember → Bool} (h : ∀ m, p (g m) = p m) :
    (l.map g).countP p = l.countP p := by
  induction l with
  | nil => rfl
  | cons m t ih => simp [List.countP_cons, ih, h]

/-- C7: `remove_members` then `add_members` on the same file and album
round-trips the active state — the file is active again at the re-add time,
every previously open row is preserved as a closed row ending at the removal
time (rows are never deleted), and the row count for the (file, album) pair
grows by exactly one; `remove_members` on a file with no open membership
changes nothing. -/
theorem c7_remove_add_round_trip (rows : List AlbumMember) (album f : UUID)
    (t₁ t₂ : Nat) (g : UUID → UUID) :
    active_member (add_members (remove_members rows album [f] t₁) album [f] t₂ g)
        f album t₂ = true ∧
    (∀ r ∈ rows, isOpenFor f album r = true →
      ({ r with period := ⟨r.period.lower, some t₁⟩ } : AlbumMember) ∈
        add_members (remove_members rows album [f] t₁) album [f] t₂ g) ∧
    (add_members (remove_members rows album [f] t₁) album [f] t₂ g).countP
        (fun m => decide (m.basefile = f) && decide (m.album = album)) =
      rows.countP (fun m => decide (m.basefile = f) && decide (m.album = album)) + 1 ∧
    (rows.any (isOpenFor f album) = false → remove_members rows album [f] t₁ = rows) := by
  have hno := no_open_after_remove rows album f t₁
  have hadd : add_members (remove_members rows album [f] t₁) album [f] t₂ g =
      remove_members rows album [f] t₁ ++ [⟨g f, f, album, ⟨t₂, none⟩⟩] := by
    show add_member (remove_members rows album [f] t₁) album f t₂ (g f) = _
    exact add_member_of_no_open hno
  refine ⟨?_, ?_, ?_, ?_⟩
  · rw [hadd]
    unfold active_member
    simp [List.any_append, Period.contains]
  · intro r hr hopen
    rw [hadd]
    apply List.mem_append_left
    rw [remove_members_single]
    exact List.mem_map.mpr ⟨r, hr, by rw [if_pos hopen]⟩
  · rw [hadd, List.countP_append, remove_members_single, countP_map_invariant]
    · simp [List.countP_cons]
    · intro m
      by_cases h : isOpenFor f album m = true <;> simp [h]
  · intro h
    rw [remove_members_single]
    have hid : ∀ m ∈ rows,
        (if isOpenFor f album m
          then ({ m with period := ⟨m.period.lower, some t₁⟩ } : AlbumMember)
          else m) = m := by
      intro m hm
      rw [if_neg (List.any_eq_false.mp h m hm)]
    calc rows.map _ = rows.map id := List.map_congr_left hid
    _ = rows := List.map_id rows

/-- C7 witness: a concrete round trip — file 1 open in album 2 since 0,
removed at 5 and re-added at 7 — is active again, keeps the closed row
`[0, 5)`, and has two rows for the pair; and removing a file with no open
membership changes nothing. -/
theorem c7_remove_add_round_trip_witness :
    active_member
      (add_members (remove_members [(⟨0, 1, 2, ⟨0, none⟩⟩ : AlbumMember)] 2 [1] 5)
        2 [1] 7 (fun _ => 9)) 1 2 7 = true ∧
    remove_members [(⟨0, 1, 2, ⟨0, none⟩⟩ : AlbumMember)] 2 [3] 5 =
      [(⟨0, 1, 2, ⟨0, none⟩⟩ : AlbumMember)] :=
  ⟨(c7_remove_add_round_trip [⟨0, 1, 2, ⟨0, none⟩⟩] 2 1 5 7 (fun _ => 9)).1,
    (c7_remove_add_round_trip [⟨0, 1, 2, ⟨0, none⟩⟩] 2 3 5 7 (fun _ => 9)).2.2.2
      (by decide)⟩

/-- C8, evaluating the code at the failing input: a PATCH album update by the
owner whose payload sets only `title` — lacking the `files` key — does not
succeed and update the scalar field; `payload.dict(exclude_unset=True)` has
no `"files"` entry, so `del data["files"]` raises KeyError and the request
dies before updating anything. -/
theorem c8_patch_without_files_keyerror :
    album_update
      ⟨[], [⟨10, 1, "old", "", false⟩], [⟨100, 1, 10, ⟨0, none⟩⟩],
        [⟨.user 1, .change_album, 10⟩]⟩
      ⟨1, false, []⟩ 10 ⟨some "x", none, none⟩ .patch false 5 (fun _ => 0) =
      (.keyError,
        ⟨[], [⟨10, 1, "old", "", false⟩], [⟨100, 1, 10, ⟨0, none⟩⟩],
          [⟨.user 1, .change_album, 10⟩]⟩) := by
  decide

/-- C9: every mutating handler invoked with check=true leaves the whole
store untouched, and answers the distinct 202 would-succeed signal whenever
its permission (and, for the batch file actions, status) gate passes. -/
theorem c9_check_mode_is_pure (s : Store) (u : User) :
    (∀ (uuids : List UUID) (act : FileAction),
      (api_file_action s u uuids act true).2 = s ∧
      (uuids.length = (eligible_files s u uuids act).length →
        api_file_action s u uuids act true = (.accepted, s))) ∧
    (∀ (fid : UUID) (meta : FileMeta) (method : Method),
      (file_update s u fid meta method true).2 = s ∧
      (∀ f, s.files.find? (fun x => decide (x.uuid = fid)) = some f →
        has_perm s.ledger u .change_basefile f.uuid = true →
        file_update s u fid meta method true = (.accepted, s))) ∧
    (∀ fid : UUID,
      (file_delete s u fid true).2 = s ∧
      (∀ f, s.files.find? (fun x => decide (x.uuid = fid)) = some f →
        has_perm s.ledger u .delete_basefile f.uuid = true →
        file_delete s u fid true = (.accepted, s))) ∧
    (∀ (aid : UUID) (payload : AlbumPayload) (method : Method) (now : Nat)
        (g : UUID → UUID),
      (album_update s u aid payload method true now g).2 = s ∧
      (∀ a, s.albums.find? (fun x => decide (x.uuid = aid)) = some a →
        has_perm s.ledger u .change_album a.uuid = true →
        album_update s u aid payload method true now g = (.accepted, s))) ∧
    (∀ aid : UUID,
      (album_delete s u aid true).2 = s ∧
      (∀ a, s.albums.find? (fun x => decide (x.uuid = aid)) = some a →
        has_perm s.ledger u .delete_album a.uuid = true →
        album_delete s u aid true = (.accepted, s))) := by
  refine ⟨?_, ?_, ?_, ?_, ?_⟩
  · intro uuids act
    constructor
    · by_cases h : uuids.length ≠ (eligible_files s u uuids act).length <;>
        simp [api_file_action, h]
    · intro h
      simp [api_file_action, h]
  · intro fid meta method
    constructor
    · rcases hf : s.files.find? (fun x => decide (x.uuid = fid)) with _ | f
      · simp [file_update, hf]
      · by_cases hp : has_perm s.ledger u .change_basefile f.uuid = true <;>
          simp [file_update, hf, hp]
    · intro f hf hp
      simp [file_update, hf, hp]
  · intro fid
    constructor
    · rcases hf : s.files.find? (fun x => decide (x.uuid = fid)) with _ | f
      · simp [file_delete, hf]
      · by_cases hp : has_perm s.ledger u .delete_basefile f.uuid = true <;>
          simp [file_delete, hf, hp]
    · intro f hf hp
      simp [file_delete, hf, hp]
  · intro aid payload method now g
    constructor
    · rcases ha : s.albums.find? (fun x => decide (x.uuid = aid)) with _ | a
      · simp [album_update, ha]
      · by_cases hp : has_perm s.ledger u .change_album a.uuid = true <;>
          simp [album_update, ha, hp]
    · intro a ha hp
      simp [album_update, ha, hp]
  · intro aid
    constructor
    · rcases ha : s.albums.find? (fun x => decide (x.uuid = aid)) with _ | a
      · simp [album_delete, ha]
      · by_cases hp : has_perm s.ledger u .delete_album a.uuid = true <;>
          simp [album_delete, ha, hp]
    · intro a ha hp
      simp [album_delete, ha, hp]

/-- C9 witness: a concrete check-mode delete request by a permitted caller
answers 202 and leaves the store unchanged. -/
theorem c9_check_mode_is_pure_witness :
    file_delete
      ⟨[⟨1, 2, "t", "", "", false, false, false⟩], [], [],
        [⟨.user 2, .delete_basefile, 1⟩]⟩
      ⟨2, false, []⟩ 1 true =
      (.accepted,
        ⟨[⟨1, 2, "t", "", "", false, false, false⟩], [], [],
          [⟨.user 2, .delete_basefile, 1⟩]⟩) :=
  ((c9_check_mode_is_pure
      ⟨[⟨1, 2, "t", "", "", false, false, false⟩], [], [],
        [⟨.user 2, .delete_basefile, 1⟩]⟩
      ⟨2, false, []⟩).2.2.1 1).2
    ⟨1, 2, "t", "", "", false, false, false⟩ (by decide) (by decide)

/-- Ledger membership after one `assign_perm`. -/
theorem mem_assign_perm {g : Grant} {p : Perm} {who : Principal} {obj : UUID}
    {l : Ledger} :
    g ∈ assign_perm p who obj l ↔ g = ⟨who, p, obj⟩ ∨ g ∈ l := by
  unfold assign_perm
  split
  · rename_i h
    constructor
    · exact fun hg => Or.inr hg
    · rintro (rfl | hg)
      · exact h
      · exact hg
  · simp [List.mem_cons]

/-- Ledger membership after `add_initial_permissions`: exactly the nine
initial grants plus whatever was there before. -/
theorem mem_add_initial_permissions {g : Grant} {f : BaseFile} {mods : GroupId}
    {l : Ledger} :
    g ∈ f.add_initial_permissions mods l ↔
      g = ⟨.group mods, .unapprove_basefile, f.uuid⟩ ∨
      g = ⟨.group mods, .approve_basefile, f.uuid⟩ ∨
      g = ⟨.group mods, .view_basefile, f.uuid⟩ ∨
      g = ⟨.user f.uploader, .undelete_basefile, f.uuid⟩ ∨
      g = ⟨.user f.uploader, .softdelete_basefile, f.uuid⟩ ∨
      g = ⟨.user f.uploader, .unpublish_basefile, f.uuid⟩ ∨
      g = ⟨.user f.uploader, .publish_basefile, f.uuid⟩ ∨
      g = ⟨.user f.uploader, .change_basefile, f.uuid⟩ ∨
      g = ⟨.user f.uploader, .view_basefile, f.uuid⟩ ∨
      g ∈ l := by
  unfold BaseFile.add_initial_permissions
  simp [mem_assign_perm]

/-- Unfolding `grantMatches` into a proposition. -/
theorem grantMatches_eq_true_iff {u : User} {p : Perm} {obj : UUID} {g : Grant} :
    grantMatches u p obj g = true ↔
      g.perm = p ∧ g.obj = obj ∧
        (g.who = Principal.user u.id ∨ ∃ gr ∈ u.groups, g.who = Principal.group gr) := by
  simp [grantMatches, List.any_eq_true, and_assoc]

/-- Unfolding `has_perm` into a proposition. -/
theorem has_perm_eq_true_iff {l : Ledger} {u : User} {p : Perm} {obj : UUID} :
    has_perm l u p obj = true ↔
      u.is_superuser = true ∨ ∃ g ∈ l, grantMatches u p obj g = true := by
  simp [has_perm, List.any_eq_true]

/-- C10: after upload the uploader's object permissions on the file are
exactly view, change, publish, unpublish, softdelete and undelete — never
`delete_basefile`; no non-superuser has `delete_basefile` on the file; hence
the uploader's own delete request on the freshly uploaded file is answered
with permission-denied and the store is unchanged. -/
theorem c10_uploader_cannot_delete
    (f : BaseFile) (mods : GroupId) (l₀ : Ledger) (u : User)
    (hl₀ : ∀ g ∈ l₀, g.obj ≠ f.uuid) (hsup : u.is_superuser = false) :
    (∀ p : Perm,
      has_perm (f.add_initial_permissions mods l₀) ⟨f.uploader, false, []⟩ p
          f.uuid = true ↔
        p ∈ [Perm.view_basefile, .change_basefile, .publish_basefile,
          .unpublish_basefile, .softdelete_basefile, .undelete_basefile]) ∧
    has_perm (f.add_initial_permissions mods l₀) u .delete_basefile f.uuid = false ∧
    (∀ (files : List BaseFile) (albums : List Album) (ms : List AlbumMember),
      files.find? (fun x => decide (x.uuid = f.uuid)) = some f →
      file_delete ⟨files, albums, ms, f.add_initial_permissions mods l₀⟩
          ⟨f.uploader, false, []⟩ f.uuid false =
        (.permDenied, ⟨files, albums, ms, f.add_initial_permissions mods l₀⟩)) := by
  have hdel : ∀ v : User, v.is_superuser = false →
      has_perm (f.add_initial_permissions mods l₀) v .delete_basefile f.uuid = false := by
    intro v hv
    rw [Bool.eq_false_iff]
    intro hcon
    rcases has_perm_eq_true_iff.mp hcon with h | ⟨g, hg, hmatch⟩
    · rw [hv] at h; cases h
    · obtain ⟨hperm, hobj, _⟩ := grantMatches_eq_true_iff.mp hmatch
      rcases mem_add_initial_permissions.mp hg with
        rfl | rfl | rfl | rfl | rfl | rfl | rfl | rfl | rfl | hgl
      · cases hperm
      · cases hperm
      · cases hperm
      · cases hperm
      · cases hperm
      · cases hperm
      · cases hperm
      · cases hperm
      · cases hperm
      · exact hl₀ g hgl hobj
  have hgrant : ∀ p : Perm,
      (⟨.user f.uploader, p, f.uuid⟩ : Grant) ∈ f.add_initial_permissions mods l₀ →
      has_perm (f.add_initial_permissions mods l₀) ⟨f.uploader, false, []⟩ p
        f.uuid = true := by
    intro p hmem
    exact has_perm_eq_true_iff.mpr
      (Or.inr ⟨_, hmem, grantMatches_eq_true_iff.mpr ⟨rfl, rfl, Or.inl rfl⟩⟩)
  refine ⟨?_, hdel u hsup, ?_⟩
  · intro p
    constructor
    · intro hp
      rcases has_perm_eq_true_iff.mp hp with h | ⟨g, hg, hmatch⟩
      · cases h
      · obtain ⟨hperm, hobj, hwho⟩ := grantMatches_eq_true_iff.mp hmatch
        rcases hwho with hwho | ⟨gr, hgr, _⟩
        · rcases mem_add_initial_permissions.mp hg with
            rfl | rfl | rfl | rfl | rfl | rfl | rfl | rfl | rfl | hgl
          · cases hwho
          · cases hwho
          · cases hwho
          · rw [← hperm]; simp
          · rw [← hperm]; simp
          · rw [← hperm]; simp
          · rw [← hperm]; simp
          · rw [← hperm]; simp
          · rw [← hperm]; simp
          · exact absurd hobj (hl₀ g hgl)
        · cases hgr
    · intro hp
      apply hgrant
      rw [mem_add_initial_permissions]
      fin_cases hp
      · tauto
      · tauto
      · tauto
      · tauto
      · tauto
      · tauto
  · intro files albums ms hfind
    simp [file_delete, hfind, hdel ⟨f.uploader, false, []⟩ rfl]

/-- C10 witness: the theorem at a concrete fresh upload — the uploader holds
view but not `delete_basefile`, and their own delete request is denied
without changing the store. -/
theorem c10_uploader_cannot_delete_witness :
    has_perm
      (BaseFile.add_initial_permissions ⟨1, 3, "t", "", "", false, false, false⟩ 9 [])
      ⟨3, false, []⟩ .delete_basefile 1 = false ∧
    file_delete
      ⟨[⟨1, 3, "t", "", "", false, false, false⟩], [], [],
        BaseFile.add_initial_permissions ⟨1, 3, "t", "", "", false, false, false⟩ 9 []⟩
      ⟨3, false, []⟩ 1 false =
      (.permDenied,
        ⟨[⟨1, 3, "t", "", "", false, false, false⟩], [], [],
          BaseFile.add_initial_permissions ⟨1, 3, "t", "", "", false, false, false⟩
            9 []⟩) :=
  ⟨(c10_uploader_cannot_delete ⟨1, 3, "t", "", "", false, false, false⟩ 9 []
      ⟨3, false, []⟩ (by simp) rfl).2.1,
    (c10_uploader_cannot_delete ⟨1, 3, "t", "", "", false, false, false⟩ 9 []
      ⟨3, false, []⟩ (by simp) rfl).2.2 [⟨1, 3, "t", "", "", false, false, false⟩]
      [] [] (by decide)⟩

end BMA

